import Mathlib

/-!
Verification of the constraint-model encoding and solution-reporting layer of a
VLSI strip-packing repository against its natural-language specification.

The SMT encoder (`build_SMTLIB_model` in `SMT/src/build_models_z3.py`) is
embedded twice, both faithful to the source:
* a text layer producing exactly the SMT-LIB lines the Python code appends, and
* a semantic layer (`smtSat`) stating, assertion by assertion, when an integer
  assignment to the variables `coord_x_i`, `coord_y_i`, `l` satisfies the
  generated formula.

The MIP decode path (`run_mip_solver`, `compute_solution` in `MIP/src/model.py`)
and the reporter (`print_logging` in `utils/solution_log.py`) are embedded with
the solver backend's outcome passed in as data.  Parts of the repository that
the provided source tree does not contain (the `Solution` dataclass and status
enum of `utils/types.py`, the minizinc runner) are modelled from the
specification and marked as such in their doc comments.
-/

namespace Vlsi

/-- Python's `min` on a nonempty list (`min(widths)` in the source); `0` for
`[]`, which the source never reaches because instances have `N ≥ 1`. -/
def pyMin : List Int → Int
  | [] => 0
  | x :: xs => xs.foldl min x

/-- Python's `max` on a nonempty list (`max(areas)` in the source). -/
def pyMax : List Int → Int
  | [] => 0
  | x :: xs => xs.foldl max x

/-- `math.ceil(a / b)` for integers with `b > 0`, as the source computes the
area lower bound (the Python float division is exact at instance magnitudes). -/
def intCeilDiv (a b : Int) : Int := (a + b - 1) / b

/-- `l_low = math.ceil(sum([widths[i]*heights[i] for i in range(N)]) / W)`. -/
def lLow (W : Int) (N : Nat) (widths heights : List Int) : Int :=
  intCeilDiv (((List.range N).map fun i => widths.getD i 0 * heights.getD i 0).sum) W

/-- `l_up = sum(heights)`. -/
def lUp (heights : List Int) : Int := heights.sum

/-- `areas = [widths[i]*heights[i] for i in range(N)]`. -/
def areas (N : Nat) (widths heights : List Int) : List Int :=
  (List.range N).map fun i => widths.getD i 0 * heights.getD i 0

/-- `max_area_ind = areas.index(max(areas))`: the first index of the maximum
area (Python `list.index` returns the first occurrence). -/
def max_area_ind (N : Nat) (widths heights : List Int) : Nat :=
  (areas N widths heights).indexOf (pyMax (areas N widths heights))

/-! ### Semantic layer: when an assignment satisfies the generated assertions

Each of the following predicates is the meaning of one block of `assert` lines
of `build_SMTLIB_model`, in source order.  The assignment gives `coord_x_i` as
`xs.getD i 0`, `coord_y_i` as `ys.getD i 0`, and the height variable as `l`.
They are `abbrev`s so that concrete instances stay decidable. -/

/-- Lines 38-40 of the source: variable domains,
`0 ≤ coord_x_i ≤ W - min(widths)`, `0 ≤ coord_y_i ≤ l_up - min(heights)`, and
`l_low ≤ l ≤ l_up`. -/
abbrev domainSat (W : Int) (N : Nat) (widths heights xs ys : List Int) (l : Int) : Prop :=
  (∀ i, i < N → 0 ≤ xs.getD i 0 ∧ xs.getD i 0 ≤ W - pyMin widths) ∧
  (∀ i, i < N → 0 ≤ ys.getD i 0 ∧ ys.getD i 0 ≤ lUp heights - pyMin heights) ∧
  (lLow W N widths heights ≤ l ∧ l ≤ lUp heights)

/-- Lines 44-51: for each pair `i < j` the four-way separation disjunction. -/
abbrev nonOverlapSat (N : Nat) (widths heights xs ys : List Int) : Prop :=
  ∀ i, i < N → ∀ j, j < N → i < j →
    (xs.getD i 0 + widths.getD i 0 ≤ xs.getD j 0 ∨
     ys.getD i 0 + heights.getD i 0 ≤ ys.getD j 0 ∨
     xs.getD i 0 - widths.getD j 0 ≥ xs.getD j 0 ∨
     ys.getD i 0 - heights.getD j 0 ≥ ys.getD j 0)

/-- Line 54: `coord_x_i + widths[i] ≤ W` and `coord_y_i + heights[i] ≤ l`. -/
abbrev boundarySat (W : Int) (N : Nat) (widths heights xs ys : List Int) (l : Int) : Prop :=
  ∀ i, i < N →
    xs.getD i 0 + widths.getD i 0 ≤ W ∧ ys.getD i 0 + heights.getD i 0 ≤ l

/-- The sum in line 59: total width of the items whose vertical span crosses
level `w`, `Σ_i ite (coord_y_i ≤ w < coord_y_i + heights[i]) widths[i] 0`. -/
abbrev crossYSum (N : Nat) (widths heights ys : List Int) (w : Int) : Int :=
  (((List.range N).map fun i =>
    if ys.getD i 0 ≤ w ∧ w < ys.getD i 0 + heights.getD i 0 then widths.getD i 0
    else 0)).sum

/-- The sum in line 63: total height of the items whose horizontal span crosses
level `h`, `Σ_i ite (coord_x_i ≤ h < coord_x_i + widths[i]) heights[i] 0`. -/
abbrev crossXSum (N : Nat) (widths heights xs : List Int) (h : Int) : Int :=
  (((List.range N).map fun i =>
    if xs.getD i 0 ≤ h ∧ h < xs.getD i 0 + widths.getD i 0 then heights.getD i 0
    else 0)).sum

/-- Lines 58-64: one cumulative constraint per *element* of `widths` (bounded
by `W`) and one per *element* of `heights` (bounded by `l`). -/
abbrev cumulativeSat (W : Int) (N : Nat) (widths heights xs ys : List Int) (l : Int) : Prop :=
  (∀ k, k < widths.length → crossYSum N widths heights ys (widths.getD k 0) ≤ W) ∧
  (∀ k, k < heights.length → crossXSum N widths heights xs (heights.getD k 0) ≤ l)

/-- Lines 67-70: for each pair `i < j`,
`ite (widths[i]=widths[j] ∧ heights[i]=heights[j]) (coord_x_i ≤ coord_x_j) true`. -/
abbrev sameSizeSat (N : Nat) (widths heights xs : List Int) : Prop :=
  ∀ i, i < N → ∀ j, j < N → i < j →
    (if widths.getD i 0 = widths.getD j 0 ∧ heights.getD i 0 = heights.getD j 0
     then xs.getD i 0 ≤ xs.getD j 0 else True)

/-- Lines 74-77: the first item of maximum area is pinned to the origin. -/
abbrev maxAreaSat (N : Nat) (widths heights xs ys : List Int) : Prop :=
  xs.getD (max_area_ind N widths heights) 0 = 0 ∧
  ys.getD (max_area_ind N widths heights) 0 = 0

/-- An assignment satisfies the formula generated by `build_SMTLIB_model` iff
it satisfies every asserted constraint, in source order. -/
abbrev smtSat (W : Int) (N : Nat) (widths heights xs ys : List Int) (l : Int) : Prop :=
  domainSat W N widths heights xs ys l ∧
  nonOverlapSat N widths heights xs ys ∧
  boundarySat W N widths heights xs ys l ∧
  cumulativeSat W N widths heights xs ys l ∧
  sameSizeSat N widths heights xs ∧
  maxAreaSat N widths heights xs ys

/-- A point `(px, py)` lies inside the axis-aligned rectangle with bottom-left
corner `(x, y)`, width `w` and height `h` (unit-cell reading). -/
def inRect (x y w h px py : Int) : Prop :=
  x ≤ px ∧ px < x + w ∧ y ≤ py ∧ py < y + h

/-! ### Text layer: the exact SMT-LIB lines the source appends -/

/-- Line 33/34 of the source: variable declarations. -/
def declLines (N : Nat) : List String :=
  ((List.range N).map fun i => "(declare-fun coord_x" ++ toString i ++ " () Int)") ++
  ((List.range N).map fun i => "(declare-fun coord_y" ++ toString i ++ " () Int)") ++
  ["(declare-fun l () Int)"]

/-- Lines 38-40: domain assertions. -/
def domainLines (W : Int) (N : Nat) (widths heights : List Int) : List String :=
  ((List.range N).map fun i =>
    "(assert (and (>= coord_x" ++ toString i ++ " 0) (<= coord_x" ++ toString i ++
      " " ++ toString (W - pyMin widths) ++ ")))") ++
  ((List.range N).map fun i =>
    "(assert (and (>= coord_y" ++ toString i ++ " 0) (<= coord_y" ++ toString i ++
      " " ++ toString (lUp heights - pyMin heights) ++ ")))") ++
  ["(assert (and (>= l " ++ toString (lLow W N widths heights) ++ ") (<= l " ++
      toString (lUp heights) ++ ")))"]

/-- Lines 47-51: the non-overlap assertion for the pair `(i, j)`. -/
def nonOverlapLine (widths heights : List Int) (i j : Nat) : String :=
  "(assert (or (<= (+ coord_x" ++ toString i ++ " " ++ toString (widths.getD i 0) ++
    ") coord_x" ++ toString j ++ ") " ++
  "(<= (+ coord_y" ++ toString i ++ " " ++ toString (heights.getD i 0) ++
    ") coord_y" ++ toString j ++ ") " ++
  "(>= (- coord_x" ++ toString i ++ " " ++ toString (widths.getD j 0) ++
    ") coord_x" ++ toString j ++ ") " ++
  "(>= (- coord_y" ++ toString i ++ " " ++ toString (heights.getD j 0) ++
    ") coord_y" ++ toString j ++ ")))"

/-- The double loop `for i in range(N): for j in range(N): if i < j: append`. -/
def pairLines (N : Nat) (line : Nat → Nat → String) : List String :=
  ((List.range N).map fun i =>
    (List.range N).filterMap fun j => if i < j then some (line i j) else none).flatten

/-- Line 54: boundary assertions. -/
def boundaryLines (W : Int) (N : Nat) (widths heights : List Int) : List String :=
  (List.range N).map fun i =>
    "(assert (and (<= (+ coord_x" ++ toString i ++ " " ++ toString (widths.getD i 0) ++
      ") " ++ toString W ++ ") (<= (+ coord_y" ++ toString i ++ " " ++
      toString (heights.getD i 0) ++ ") l)))"

/-- One summand of line 59. -/
def iteYTerm (widths heights : List Int) (w : Int) (i : Nat) : String :=
  "(ite (and (<= coord_y" ++ toString i ++ " " ++ toString w ++ ") (< " ++ toString w ++
  " (+ coord_y" ++ toString i ++ " " ++ toString (heights.getD i 0) ++ "))) " ++
  toString (widths.getD i 0) ++ " 0)"

/-- Lines 58-60: one line per element of `widths` (`for w in widths`). -/
def cumulWidthLines (W : Int) (N : Nat) (widths heights : List Int) : List String :=
  widths.map fun w =>
    "(assert (<= (+ " ++
      String.intercalate " " ((List.range N).map (iteYTerm widths heights w)) ++
      ") " ++ toString W ++ "))"

/-- One summand of line 63. -/
def iteXTerm (widths heights : List Int) (h : Int) (i : Nat) : String :=
  "(ite (and (<= coord_x" ++ toString i ++ " " ++ toString h ++ ") (< " ++ toString h ++
  " (+ coord_x" ++ toString i ++ " " ++ toString (widths.getD i 0) ++ "))) " ++
  toString (heights.getD i 0) ++ " 0)"

/-- Lines 62-64: one line per element of `heights` (`for h in heights`). -/
def cumulHeightLines (N : Nat) (widths heights : List Int) : List String :=
  heights.map fun h =>
    "(assert (<= (+ " ++
      String.intercalate " " ((List.range N).map (iteXTerm widths heights h)) ++
      ") l))"

/-- Line 70: same-size symmetry-breaking assertion for the pair `(i, j)`. -/
def sameSizeLine (widths heights : List Int) (i j : Nat) : String :=
  "(assert (ite (and (= " ++ toString (widths.getD i 0) ++ " " ++
    toString (widths.getD j 0) ++ ") (= " ++ toString (heights.getD i 0) ++ " " ++
    toString (heights.getD j 0) ++ ")) (<= coord_x" ++ toString i ++
    " coord_x" ++ toString j ++ ") true))"

/-- Lines 76-77: pin the first maximum-area item to the origin. -/
def maxAreaLines (N : Nat) (widths heights : List Int) : List String :=
  ["(assert (= coord_x" ++ toString (max_area_ind N widths heights) ++ " 0))",
   "(assert (= coord_y" ++ toString (max_area_ind N widths heights) ++ " 0))"]

/-- The full line sequence `build_SMTLIB_model` writes, in source order
(`set-logic`, declarations, domain, non-overlap, boundary, cumulative,
symmetry breaking, origin pinning, `check-sat`, `get-model`). -/
def build_SMTLIB_model (W : Int) (N : Nat) (widths heights : List Int)
    (logic : String) : List String :=
  ["(set-logic " ++ logic ++ ")"] ++
  declLines N ++
  domainLines W N widths heights ++
  pairLines N (nonOverlapLine widths heights) ++
  boundaryLines W N widths heights ++
  cumulWidthLines W N widths heights ++
  cumulHeightLines N widths heights ++
  pairLines N (sameSizeLine widths heights) ++
  maxAreaLines N widths heights ++
  ["(check-sat)", "(get-model)"]

/-! ### MIP decode path (`MIP/src/model.py`) and reporter (`utils/solution_log.py`)

The backend solver (`prob.solve(solver)`) is external; its outcome is passed in
as data: either an exception (`Except.error`) or a `MipOutcome` carrying the
native status, the solve time, the objective value and the variable
assignments (values taken post-`round` as integers; floating point itself is
outside the embedding). -/

/-- Modelled from the spec: the status taxonomy of `utils/types.py` (a file the
provided tree does not contain), §3: "status (enum: OPTIMAL, FEASIBLE,
NO_SOLUTION_FOUND, ERROR, INFEASIBLE)". -/
inductive StatusEnum where
  | OPTIMAL
  | FEASIBLE
  | NO_SOLUTION_FOUND
  | ERROR
  | INFEASIBLE
deriving DecidableEq, Repr

/-- Modelled from the spec: `SOLUTION_ADMISSABLE` of `utils/types.py`: a status
is admissible iff it is OPTIMAL or FEASIBLE (§3, §4.5, §7). -/
def SOLUTION_ADMISSABLE (s : StatusEnum) : Bool :=
  s == StatusEnum.OPTIMAL || s == StatusEnum.FEASIBLE

/-- `SOLUTION_ADMISSABLE` applied to a possibly-unset status field; an unset
status is not admissible. -/
def admissibleOpt : Option StatusEnum → Bool
  | some s => SOLUTION_ADMISSABLE s
  | none => false

/-- The `coords` dictionary `{"x": [None]*N, "y": [None]*N}` of the decoder. -/
structure Coords where
  x : List (Option Int)
  y : List (Option Int)
deriving DecidableEq, Repr

/-- Modelled from the spec: the `Solution` dataclass of `utils/types.py`
(§3): created empty (every field unset), populated by the decoder, consumed
read-only by the reporter; `rotation` is nullable. -/
structure Solution where
  input_name : Option String := none
  width : Option Int := none
  n_circuits : Option Nat := none
  circuits : Option (List (List Int)) := none
  status : Option StatusEnum := none
  height : Option Int := none
  solve_time : Option Int := none
  coords : Option Coords := none
  rotation : Option (List Bool) := none
deriving DecidableEq, Repr

/-- The backend's answer to a successful `prob.solve(solver)` call:
`prob.sol_status` already mapped into the taxonomy, `prob.solutionTime`, the
objective value, and `prob.variables()` as (name, rounded value) pairs. -/
structure MipOutcome where
  sol_status : StatusEnum
  solutionTime : Int
  objective : Int
  varList : List (String × Int)
deriving DecidableEq, Repr

/-- One iteration of the decoder's `for v in prob.variables()` loop
(`model.py` lines 83-90): name-prefix dispatch, trailing-index parse
(`v.name[8:]`, `v.name[4:]`), and in-place update of the accumulator
`(rotation, coords_x, coords_y)`.  Python's `int(...)` on a non-numeral and
an out-of-range index raise; the embedding's `getD 0` / `List.set` no-op is
unreached for the variable names the encoders emit. -/
def decode_step (acc : List Bool × List (Option Int) × List (Option Int))
    (v : String × Int) : List Bool × List (Option Int) × List (Option Int) :=
  if v.1.startsWith "coord_x" then
    (acc.1, acc.2.1.set ((v.1.drop 8).toNat?.getD 0) (some v.2), acc.2.2)
  else if v.1.startsWith "coord_y" then
    (acc.1, acc.2.1, acc.2.2.set ((v.1.drop 8).toNat?.getD 0) (some v.2))
  else if v.1.startsWith "rot" then
    (acc.1.set ((v.1.drop 4).toNat?.getD 0) (v.2 != 0), acc.2.1, acc.2.2)
  else acc

/-- The decoder's variable scan, started from `rotation = [False] * N` and
`coords = {"x": [None]*N, "y": [None]*N}` (`model.py` lines 81-90). -/
def decode_vars (N : Nat) (vars : List (String × Int)) :
    List Bool × List (Option Int) × List (Option Int) :=
  vars.foldl decode_step
    (List.replicate N false, List.replicate N (none : Option Int),
     List.replicate N (none : Option Int))

/-- `run_mip_solver` (`model.py` lines 36-97): populate the instance fields,
then either catch the solver exception (status ERROR, nothing else set) or
record status and time and, when the status is admissible, decode height,
coordinates and rotation (`sol.rotation = rotation if len(rotation) > 0 else
None`). -/
def run_mip_solver (input_name : String) (W : Int) (N : Nat)
    (widths heights : List Int) (solveResult : Except String MipOutcome) :
    Solution :=
  let sol : Solution := {}
  let sol : Solution :=
    { sol with
      input_name := some input_name
      width := some W
      n_circuits := some N
      circuits := some ((List.range N).map fun i =>
        [widths.getD i 0, heights.getD i 0]) }
  match solveResult with
  | Except.error _ => { sol with status := some StatusEnum.ERROR }
  | Except.ok out =>
      let sol : Solution :=
        { sol with
          status := some out.sol_status
          solve_time := some out.solutionTime }
      if SOLUTION_ADMISSABLE out.sol_status then
        let dec := decode_vars N out.varList
        { sol with
          height := some out.objective
          coords := some ⟨dec.2.1, dec.2.2⟩
          rotation := if dec.1.length > 0 then some dec.1 else none }
      else sol

/-! #### Reporter (`utils/solution_log.py`): the lines `print_logging` prints -/

def FEASIBLE_MSG : String := "A solution has been found, but not an optimal one"

def OPTIMAL_MSG : String := "Optimal solution has been found"

def NO_SOLUTION_MSG : String := "No solution has been found"

def GENERIC_MSG : String := "Infeasible solution"

def ERROR_MSG : String := "Error during execution"

/-- The `if/elif/else` chain of `print_logging` (lines 13-22): the one status
message printed for a given status field. -/
def statusMessage (st : Option StatusEnum) : String :=
  if st = some StatusEnum.FEASIBLE then FEASIBLE_MSG
  else if st = some StatusEnum.OPTIMAL then OPTIMAL_MSG
  else if st = some StatusEnum.NO_SOLUTION_FOUND then NO_SOLUTION_MSG
  else if st = some StatusEnum.ERROR then ERROR_MSG
  else GENERIC_MSG

/-- How Python's f-string renders a possibly-unset integer field. -/
def optIntStr : Option Int → String
  | some v => toString v
  | none => "None"

/-- Line 26-28: `f"Solved {input_name} with W={width} and H={height}"`. -/
def solvedLine (sol : Solution) : String :=
  "Solved " ++ sol.input_name.getD "None" ++ " with W=" ++ optIntStr sol.width ++
    " and H=" ++ optIntStr sol.height

/-- Line 29: `f"Time: {solution.solve_time}"`. -/
def timeLine (sol : Solution) : String :=
  "Time: " ++ optIntStr sol.solve_time

/-- Python truthiness of `solution.rotation and solution.rotation[i]`:
a null or empty rotation list is falsy. -/
def rotatedAt (rotation : Option (List Bool)) (i : Nat) : Bool :=
  match rotation with
  | some r => !r.isEmpty && r.getD i false
  | none => false

/-- Lines 32-37: the geometry line for item `i`: effective width and height
(swapped when rotated) followed by the decoded coordinates. -/
def geometryLine (sol : Solution) (i : Nat) : String :=
  let c := (sol.circuits.getD []).getD i []
  let first := if rotatedAt sol.rotation i then c.getD 1 0 else c.getD 0 0
  let second := if rotatedAt sol.rotation i then c.getD 0 0 else c.getD 1 0
  let cx := match sol.coords with
    | some co => optIntStr (co.x.getD i none)
    | none => "None"
  let cy := match sol.coords with
    | some co => optIntStr (co.y.getD i none)
    | none => "None"
  toString first ++ " " ++ toString second ++ ", " ++ cx ++ " " ++ cy

/-- The loop `for i in range(0, solution.n_circuits)` of lines 31-37. -/
def geometryLines (sol : Solution) : List String :=
  (List.range (sol.n_circuits.getD 0)).map (geometryLine sol)

/-- `print_logging` (`solution_log.py` lines 12-37) as the list of lines it
prints: always one status message; then, only when the status is admissible,
the summary line, the time line, and one geometry line per circuit. -/
def print_logging (sol : Solution) : List String :=
  [statusMessage sol.status] ++
    (if admissibleOpt sol.status then
       [solvedLine sol, timeLine sol] ++ geometryLines sol
     else [])

/-! #### `compute_solution` (`model.py` lines 100-128) and the arity bug -/

/-- The solver choices `compute_solution` dispatches on (`utils/types.py`,
members as used in `model.py`). -/
inductive SolverMIP where
  | MINIZINC
  | MOSEK
  | CPLEX
deriving DecidableEq, Repr

/-- A Python value passed as an argument in a call. -/
inductive PyValue where
  | sol (s : Solution)
  | bool (b : Bool)

/-- A Python runtime fault. -/
inductive PyError where
  | typeError
deriving DecidableEq, Repr

/-- Python call semantics for `print_logging`: the function declares exactly
one parameter (`def print_logging(solution):`, `solution_log.py` line 12), so
a call whose argument list is anything but one `Solution` raises `TypeError`
before the body runs. -/
def call_print_logging (args : List PyValue) : Except PyError (List String) :=
  match args with
  | [PyValue.sol s] => Except.ok (print_logging s)
  | _ => Except.error PyError.typeError

/-- Modelled from the spec: `run_minizinc` (`utils/minizinc_solver.py`, a file
the provided tree does not contain) is a collaborator returning a decoded
`Solution` (§6); its result is passed in as data. -/
def run_minizinc (result : Solution) : Solution := result

/-- `compute_solution` (`model.py` lines 100-128): pick the solver branch to
obtain `sol`, then execute `print_logging(sol, verbose)` — a two-argument call
of a one-parameter function — and only afterwards `plot_solution` and the
return.  The result is the returned solution paired with whether the plotting
collaborator was reached, or the raised fault. -/
def compute_solution (input_name : String) (solver : SolverMIP) (verbose : Bool)
    (W : Int) (N : Nat) (widths heights : List Int) (minizincResult : Solution)
    (mipResult : Except String MipOutcome) : Except PyError (Solution × Bool) :=
  let sol : Solution :=
    match solver with
    | SolverMIP.MINIZINC => run_minizinc minizincResult
    | SolverMIP.MOSEK => run_mip_solver input_name W N widths heights mipResult
    | SolverMIP.CPLEX => run_mip_solver input_name W N widths heights mipResult
  match call_print_logging [PyValue.sol sol, PyValue.bool verbose] with
  | Except.error e => Except.error e
  | Except.ok _ => Except.ok (sol, true)

/-! ### Helper lemmas -/

theorem foldl_max_mem (xs : List Int) : ∀ a : Int, xs.foldl max a ∈ a :: xs := by
  induction xs with
  | nil => intro a; simp
  | cons y t ih =>
      intro a
      have h := ih (max a y)
      rw [List.foldl_cons]
      rcases List.mem_cons.1 h with h1 | h1
      · rw [h1]
        rcases max_choice a y with hm | hm <;> rw [hm]
        · exact List.mem_cons_self a (y :: t)
        · exact List.mem_cons.2 (Or.inr (List.mem_cons_self y t))
      · exact List.mem_cons.2 (Or.inr (List.mem_cons.2 (Or.inr h1)))

theorem pyMax_mem : ∀ xs : List Int, xs ≠ [] → pyMax xs ∈ xs
  | [], h => absurd rfl h
  | x :: t, _ => foldl_max_mem t x

theorem indexOf_getD_spec (a : Int) :
    ∀ l : List Int, a ∈ l →
      l.getD (l.indexOf a) 0 = a ∧ ∀ i, i < l.indexOf a → l.getD i 0 ≠ a := by
  intro l
  induction l with
  | nil => intro h; simp at h
  | cons x t ih =>
      intro hmem
      by_cases hx : x = a
      · subst hx
        rw [List.indexOf_cons_self]
        exact ⟨rfl, fun i hi => absurd hi (Nat.not_lt_zero i)⟩
      · have hmt : a ∈ t := by
          rcases List.mem_cons.1 hmem with h | h
          · exact absurd h.symm hx
          · exact h
        have hstep : (x :: t).indexOf a = t.indexOf a + 1 := by
          simp [List.indexOf_cons, cond_eq_if, beq_iff_eq, hx]
        obtain ⟨h1, h2⟩ := ih hmt
        rw [hstep]
        refine ⟨by simpa using h1, ?_⟩
        intro i hi
        cases i with
        | zero => simpa using hx
        | succ j =>
            have hj : j < t.indexOf a := by omega
            simpa using h2 j hj

theorem intCeilDiv_le (a b c : Int) (hb : 0 < b) (h : a ≤ b * c) :
    intCeilDiv a b ≤ c := by
  unfold intCeilDiv
  have hcb : c * b = b * c := mul_comm c b
  have h1 : a + b - 1 ≤ (b - 1) + c * b := by linarith
  have h2 : (a + b - 1) / b ≤ ((b - 1) + c * b) / b := Int.ediv_le_ediv hb h1
  have h3 : ((b - 1) + c * b) / b = (b - 1) / b + c :=
    Int.add_mul_ediv_right _ _ (ne_of_gt hb)
  have h4 : (b - 1) / b = 0 := Int.ediv_eq_zero_of_lt (by omega) (by omega)
  omega

theorem decode_step_rot_length
    (acc : List Bool × List (Option Int) × List (Option Int)) (v : String × Int) :
    (decode_step acc v).1.length = acc.1.length := by
  unfold decode_step
  split_ifs <;> simp

theorem foldl_decode_rot_length (vars : List (String × Int)) :
    ∀ acc, (vars.foldl decode_step acc).1.length = acc.1.length := by
  induction vars with
  | nil => intro acc; rfl
  | cons v t ih =>
      intro acc
      rw [List.foldl_cons, ih]
      exact decode_step_rot_length acc v

theorem decode_step_rot_of_no_rot
    (acc : List Bool × List (Option Int) × List (Option Int)) (v : String × Int)
    (hv : ¬ v.1.startsWith "rot" = true) : (decode_step acc v).1 = acc.1 := by
  have hv' : v.1.startsWith "rot" = false := by
    cases hcase : v.1.startsWith "rot"
    · rfl
    · exact absurd hcase hv
  unfold decode_step
  simp only [hv', Bool.false_eq_true, if_false]
  split_ifs <;> rfl

theorem foldl_decode_rot_const (vars : List (String × Int))
    (h : ∀ v ∈ vars, ¬ v.1.startsWith "rot" = true) :
    ∀ acc, (vars.foldl decode_step acc).1 = acc.1 := by
  induction vars with
  | nil => intro acc; rfl
  | cons v t ih =>
      intro acc
      rw [List.foldl_cons, ih (fun u hu => h u (List.mem_cons.2 (Or.inr hu)))]
      exact decode_step_rot_of_no_rot acc v (h v (List.mem_cons_self v t))

/-! ### Claims about the SMT encoder -/

/-- **C1.** Every satisfying assignment of the generated formula separates each
pair `i < j` by one of the four disjuncts — hence the two open rectangles share
no point — and places every item inside `[0, W] × [0, l]`. -/
theorem smtSat_placements_valid (W : Int) (N : Nat)
    (widths heights xs ys : List Int) (l : Int)
    (hN : 1 ≤ N) (hwlen : widths.length = N) (hhlen : heights.length = N)
    (hwpos : ∀ i, i < N → 0 < widths.getD i 0)
    (hhpos : ∀ i, i < N → 0 < heights.getD i 0)
    (hwW : ∀ i, i < N → widths.getD i 0 ≤ W)
    (hsat : smtSat W N widths heights xs ys l) :
    (∀ i, i < N → ∀ j, j < N → i < j →
      ((xs.getD i 0 + widths.getD i 0 ≤ xs.getD j 0 ∨
        ys.getD i 0 + heights.getD i 0 ≤ ys.getD j 0 ∨
        xs.getD i 0 - widths.getD j 0 ≥ xs.getD j 0 ∨
        ys.getD i 0 - heights.getD j 0 ≥ ys.getD j 0) ∧
       ∀ px py : Int,
         ¬ (inRect (xs.getD i 0) (ys.getD i 0) (widths.getD i 0) (heights.getD i 0) px py ∧
            inRect (xs.getD j 0) (ys.getD j 0) (widths.getD j 0) (heights.getD j 0) px py))) ∧
    (∀ i, i < N →
      0 ≤ xs.getD i 0 ∧ 0 ≤ ys.getD i 0 ∧
      xs.getD i 0 + widths.getD i 0 ≤ W ∧ ys.getD i 0 + heights.getD i 0 ≤ l) := by
  obtain ⟨⟨hdx, hdy, -⟩, hno, hb, -, -, -⟩ := hsat
  constructor
  · intro i hi j hj hij
    refine ⟨hno i hi j hj hij, ?_⟩
    intro px py hboth
    simp only [inRect] at hboth
    obtain ⟨⟨a1, a2, a3, a4⟩, b1, b2, b3, b4⟩ := hboth
    rcases hno i hi j hj hij with h | h | h | h <;> omega
  · intro i hi
    exact ⟨(hdx i hi).1, (hdy i hi).1, (hb i hi).1, (hb i hi).2⟩

theorem smtSat_placements_valid_witness :
    0 ≤ ([4, 0] : List Int).getD 0 0 ∧ 0 ≤ ([0, 0] : List Int).getD 0 0 ∧
    ([4, 0] : List Int).getD 0 0 + ([4, 4] : List Int).getD 0 0 ≤ 8 ∧
    ([0, 0] : List Int).getD 0 0 + ([3, 5] : List Int).getD 0 0 ≤ 5 :=
  (smtSat_placements_valid 8 2 [4, 4] [3, 5] [4, 0] [0, 0] 5 (by decide) rfl rfl
    (by decide) (by decide) (by decide)
    ⟨by decide, by decide, by decide, by decide, by decide, by decide⟩).2 0 (by decide)

/-- **C3.** For `W = 8`, `N = 2`, `widths = [4, 4]`, `heights = [3, 5]`: the
formula is satisfied by the placement item0 at (4, 0), item1 at (0, 0) with
`l = 5`, the two items share no point there, and every satisfying assignment
has `l ≥ 5` — so the minimum of `l` over satisfying assignments is 5. -/
theorem scenario_W8_min_height_5 :
    smtSat 8 2 [4, 4] [3, 5] [4, 0] [0, 0] 5 ∧
    (∀ px py : Int, ¬ (inRect 4 0 4 3 px py ∧ inRect 0 0 4 5 px py)) ∧
    (∀ xs ys : List Int, ∀ l : Int, smtSat 8 2 [4, 4] [3, 5] xs ys l → 5 ≤ l) := by
  refine ⟨⟨by decide, by decide, by decide, by decide, by decide, by decide⟩, ?_, ?_⟩
  · intro px py hboth
    simp only [inRect] at hboth
    obtain ⟨⟨a1, a2, a3, a4⟩, b1, b2, b3, b4⟩ := hboth
    omega
  · intro xs ys l hsat
    obtain ⟨-, -, hb, -, -, hma⟩ := hsat
    have h1 := (hb 1 (by omega)).2
    have h2 : ys.getD (max_area_ind 2 [4, 4] [3, 5]) 0 = 0 := hma.2
    have hm : max_area_ind 2 [4, 4] [3, 5] = 1 := by decide
    rw [hm] at h2
    have h3 : ([3, 5] : List Int).getD 1 0 = 5 := rfl
    rw [h3] at h1
    omega

/-- **C2, counterexample.** On the instance `W = 8`, `widths = [4, 4]`,
`heights = [3, 5]` the encoder emits *two* identical cumulative lines for the
single distinct width value 4 — one per occurrence, not one per distinct value
— and the summands of the emitted line are the widths (4), not the heights. -/
theorem cumulative_per_distinct_cex :
    (cumulWidthLines 8 2 [4, 4] [3, 5]).length = 2 ∧
    (cumulWidthLines 8 2 [4, 4] [3, 5]).getD 0 "" =
      (cumulWidthLines 8 2 [4, 4] [3, 5]).getD 1 "" ∧
    ([4, 4] : List Int).dedup.length = 1 ∧
    (cumulWidthLines 8 2 [4, 4] [3, 5]).getD 0 "" =
      "(assert (<= (+ (ite (and (<= coord_y0 4) (< 4 (+ coord_y0 3))) 4 0) (ite (and (<= coord_y1 4) (< 4 (+ coord_y1 5))) 4 0)) 8))" :=
  ⟨rfl, rfl, by decide, rfl⟩

/-- **C2, amended.** The encoder asserts one cumulative constraint per
*element* of `widths` (repeated values give repeated identical constraints),
each bounding by `W` the total *width* of the items whose vertical span crosses
level `w`; symmetrically one per element of `heights`, bounding by `l` the
total *height* of the items whose horizontal span crosses level `h`. -/
theorem cumulative_per_element (W : Int) (N : Nat)
    (widths heights xs ys : List Int) (l : Int)
    (hsat : smtSat W N widths heights xs ys l) :
    (cumulWidthLines W N widths heights).length = widths.length ∧
    (cumulHeightLines N widths heights).length = heights.length ∧
    (∀ k, k < widths.length → crossYSum N widths heights ys (widths.getD k 0) ≤ W) ∧
    (∀ k, k < heights.length → crossXSum N widths heights xs (heights.getD k 0) ≤ l) :=
  ⟨List.length_map _ _, List.length_map _ _, hsat.2.2.2.1.1, hsat.2.2.2.1.2⟩

theorem cumulative_per_element_witness :
    (cumulWidthLines 8 2 [4, 4] [3, 5]).length = ([4, 4] : List Int).length ∧
    (cumulHeightLines 2 [4, 4] [3, 5]).length = ([3, 5] : List Int).length ∧
    (∀ k, k < ([4, 4] : List Int).length →
      crossYSum 2 [4, 4] [3, 5] [0, 0] (([4, 4] : List Int).getD k 0) ≤ 8) ∧
    (∀ k, k < ([3, 5] : List Int).length →
      crossXSum 2 [4, 4] [3, 5] [4, 0] (([3, 5] : List Int).getD k 0) ≤ 5) :=
  cumulative_per_element 8 2 [4, 4] [3, 5] [4, 0] [0, 0] 5
    ⟨by decide, by decide, by decide, by decide, by decide, by decide⟩

/-- **C5.** Every satisfying assignment obeys the symmetry-breaking
constraints: (a) pairs `i < j` of identical width and height have
`coord_x_i ≤ coord_x_j`; (b) the item pinned at the origin is the *first* item
of maximum area, and the pinning assertions appear verbatim in the generated
text. -/
theorem symmetry_breaking_constraints (W : Int) (N : Nat)
    (widths heights xs ys : List Int) (l : Int) (hN : 1 ≤ N)
    (hsat : smtSat W N widths heights xs ys l) :
    (∀ i, i < N → ∀ j, j < N → i < j →
      widths.getD i 0 = widths.getD j 0 → heights.getD i 0 = heights.getD j 0 →
      xs.getD i 0 ≤ xs.getD j 0) ∧
    (xs.getD (max_area_ind N widths heights) 0 = 0 ∧
     ys.getD (max_area_ind N widths heights) 0 = 0) ∧
    ((areas N widths heights).getD (max_area_ind N widths heights) 0 =
       pyMax (areas N widths heights) ∧
     ∀ i, i < max_area_ind N widths heights →
       (areas N widths heights).getD i 0 ≠ pyMax (areas N widths heights)) ∧
    ("(assert (= coord_x" ++ toString (max_area_ind N widths heights) ++ " 0))")
      ∈ build_SMTLIB_model W N widths heights "LIA" ∧
    ("(assert (= coord_y" ++ toString (max_area_ind N widths heights) ++ " 0))")
      ∈ build_SMTLIB_model W N widths heights "LIA" := by
  obtain ⟨-, -, -, -, hss, hma⟩ := hsat
  refine ⟨?_, hma, ?_, ?_, ?_⟩
  · intro i hi j hj hij hw hh
    have h := hss i hi j hj hij
    rwa [if_pos ⟨hw, hh⟩] at h
  · have hlen : (areas N widths heights).length = N := by
      simp [areas]
    have hne : areas N widths heights ≠ [] := by
      intro hcontra
      rw [hcontra] at hlen
      simp at hlen
      omega
    exact indexOf_getD_spec _ _ (pyMax_mem _ hne)
  · simp [build_SMTLIB_model, maxAreaLines, List.mem_append]
  · simp [build_SMTLIB_model, maxAreaLines, List.mem_append]

theorem symmetry_breaking_constraints_witness :
    ([4, 0] : List Int).getD (max_area_ind 2 [4, 4] [3, 5]) 0 = 0 ∧
    ([0, 0] : List Int).getD (max_area_ind 2 [4, 4] [3, 5]) 0 = 0 :=
  (symmetry_breaking_constraints 8 2 [4, 4] [3, 5] [4, 0] [0, 0] 5 (by decide)
    ⟨by decide, by decide, by decide, by decide, by decide, by decide⟩).2.1

/-- **C8.** The encoding is deterministic: two invocations of
`build_SMTLIB_model` on equal arguments produce the same sequence of SMT-LIB
lines. -/
theorem build_SMTLIB_model_deterministic (W W' : Int) (N N' : Nat)
    (widths widths' heights heights' : List Int) (logic logic' : String)
    (hW : W = W') (hN : N = N') (hw : widths = widths') (hh : heights = heights')
    (hl : logic = logic') :
    build_SMTLIB_model W N widths heights logic =
      build_SMTLIB_model W' N' widths' heights' logic' := by
  subst hW hN hw hh hl
  rfl

theorem build_SMTLIB_model_deterministic_witness :
    build_SMTLIB_model 8 2 [4, 4] [3, 5] "LIA" =
      build_SMTLIB_model 8 2 [4, 4] [3, 5] "LIA" :=
  build_SMTLIB_model_deterministic 8 8 2 2 [4, 4] [4, 4] [3, 5] [3, 5] "LIA" "LIA"
    rfl rfl rfl rfl rfl

theorem max_area_ind_single (w h : Int) : max_area_ind 1 [w] [h] = 0 := by
  have ha : areas 1 [w] [h] = [w * h] := rfl
  unfold max_area_ind
  rw [ha]
  have hp : pyMax [w * h] = w * h := rfl
  rw [hp]
  exact List.indexOf_cons_self _ _

/-- **C4.** A single-item instance (`0 < w ≤ W`, `0 < h`) has a satisfiable
formula, and every satisfying assignment puts the item at the origin with
`l = h`. -/
theorem single_item_trivial (W w h : Int) (hw : 0 < w) (hwW : w ≤ W) (hh : 0 < h) :
    (∃ xs ys : List Int, ∃ l : Int, smtSat W 1 [w] [h] xs ys l) ∧
    (∀ xs ys : List Int, ∀ l : Int, smtSat W 1 [w] [h] xs ys l →
      xs.getD 0 0 = 0 ∧ ys.getD 0 0 = 0 ∧ l = h) := by
  have hW : 0 < W := lt_of_lt_of_le hw hwW
  have hmai := max_area_ind_single w h
  constructor
  · refine ⟨[0], [0], h, ⟨?_, ?_, ?_, ?_⟩, ?_, ?_, ⟨?_, ?_⟩, ?_, ?_⟩
    · intro i hi
      have h0 : i = 0 := by omega
      subst h0
      show (0 : Int) ≤ 0 ∧ (0 : Int) ≤ W - w
      omega
    · intro i hi
      have h0 : i = 0 := by omega
      subst h0
      show (0 : Int) ≤ 0 ∧ (0 : Int) ≤ lUp [h] - pyMin [h]
      have he : lUp [h] - pyMin [h] = 0 := by simp [lUp, pyMin]
      omega
    · have hsum :
          (((List.range 1).map fun i =>
            ([w] : List Int).getD i 0 * ([h] : List Int).getD i 0)).sum = w * h := by
        have hr : List.range 1 = [0] := rfl
        simp [hr]
      unfold lLow
      rw [hsum]
      exact intCeilDiv_le _ _ _ hW (mul_le_mul_of_nonneg_right hwW hh.le)
    · simp [lUp]
    · intro i hi j hj hij
      exact absurd (by omega : j < 1 → False) (fun hcon => hcon hj)
    · intro i hi
      have h0 : i = 0 := by omega
      subst h0
      show (0 : Int) + w ≤ W ∧ (0 : Int) + h ≤ h
      omega
    · intro k hk
      have hk1 : k < 1 := by simpa using hk
      have h0 : k = 0 := by omega
      subst h0
      show (if (0 : Int) ≤ w ∧ w < 0 + h then w else 0) + 0 ≤ W
      split_ifs <;> omega
    · intro k hk
      have hk1 : k < 1 := by simpa using hk
      have h0 : k = 0 := by omega
      subst h0
      show (if (0 : Int) ≤ h ∧ h < 0 + w then h else 0) + 0 ≤ h
      split_ifs <;> omega
    · intro i hi j hj hij
      exact absurd (by omega : j < 1 → False) (fun hcon => hcon hj)
    · show ([0] : List Int).getD (max_area_ind 1 [w] [h]) 0 = 0 ∧
          ([0] : List Int).getD (max_area_ind 1 [w] [h]) 0 = 0
      rw [hmai]
      exact ⟨rfl, rfl⟩
  · intro xs ys l hsat
    obtain ⟨⟨hdx, hdy, hllow, hlup⟩, hno, hb, hcum, hss, hmx, hmy⟩ := hsat
    rw [hmai] at hmx hmy
    have hb0 := (hb 0 (by omega)).2
    have he : ([h] : List Int).getD 0 0 = h := rfl
    rw [he] at hb0
    have he2 : lUp [h] = h := by simp [lUp]
    rw [he2] at hlup
    exact ⟨hmx, hmy, by omega⟩

theorem single_item_trivial_witness :
    ∃ xs ys : List Int, ∃ l : Int, smtSat 3 1 [2] [4] xs ys l :=
  (single_item_trivial 3 2 4 (by decide) (by decide) (by decide)).1

/-! ### Claims about the MIP decode path and the reporter -/

/-- **C6.** When the backend's solve call raises, `run_mip_solver` returns the
fault as data: status ERROR with the instance fields already populated, and no
coordinates, height, rotation or solve time set. -/
theorem solver_exception_becomes_error (input_name : String) (W : Int) (N : Nat)
    (widths heights : List Int) (err : String) :
    (run_mip_solver input_name W N widths heights (Except.error err)).status =
      some StatusEnum.ERROR ∧
    (run_mip_solver input_name W N widths heights (Except.error err)).input_name =
      some input_name ∧
    (run_mip_solver input_name W N widths heights (Except.error err)).width = some W ∧
    (run_mip_solver input_name W N widths heights (Except.error err)).n_circuits =
      some N ∧
    (∃ c, (run_mip_solver input_name W N widths heights (Except.error err)).circuits =
      some c ∧ c.length = N) ∧
    (run_mip_solver input_name W N widths heights (Except.error err)).coords = none ∧
    (run_mip_solver input_name W N widths heights (Except.error err)).height = none ∧
    (run_mip_solver input_name W N widths heights (Except.error err)).rotation = none ∧
    (run_mip_solver input_name W N widths heights (Except.error err)).solve_time =
      none :=
  ⟨rfl, rfl, rfl, rfl,
   ⟨(List.range N).map fun i => [widths.getD i 0, heights.getD i 0], rfl, by simp⟩,
   rfl, rfl, rfl, rfl⟩

theorem statusMessage_ne_timeLine (st : Option StatusEnum) (sol : Solution) :
    statusMessage st ≠ timeLine sol := by
  intro hcontra
  have hd := congrArg String.data hcontra
  rw [timeLine] at hd
  cases hsolve : sol.solve_time with
  | none =>
      rw [hsolve] at hd
      unfold statusMessage at hd
      split_ifs at hd <;>
        simp [FEASIBLE_MSG, OPTIMAL_MSG, NO_SOLUTION_MSG, ERROR_MSG, GENERIC_MSG,
          optIntStr, String.data_append] at hd
  | some v =>
      rw [hsolve] at hd
      unfold statusMessage at hd
      split_ifs at hd <;>
        simp [FEASIBLE_MSG, OPTIMAL_MSG, NO_SOLUTION_MSG, ERROR_MSG, GENERIC_MSG,
          optIntStr, String.data_append] at hd

/-- **C7, counterexample.** For a solution whose status is ERROR the reporter
prints only the status message: the `Time:` line does not appear, although the
claim says the solve time is printed for every status. -/
theorem time_line_not_always_printed_cex :
    print_logging { status := some StatusEnum.ERROR } = [ERROR_MSG] ∧
    timeLine { status := some StatusEnum.ERROR } ∉
      print_logging { status := some StatusEnum.ERROR } ∧
    admissibleOpt (some StatusEnum.ERROR) = false := by
  refine ⟨rfl, ?_, rfl⟩
  intro hmem
  have hpl : print_logging { status := some StatusEnum.ERROR } = [ERROR_MSG] := rfl
  rw [hpl] at hmem
  have heq : timeLine { status := some StatusEnum.ERROR } = ERROR_MSG := by
    simpa using hmem
  have hmsg : statusMessage (some StatusEnum.ERROR) = ERROR_MSG := rfl
  exact statusMessage_ne_timeLine (some StatusEnum.ERROR) _ (hmsg.trans heq.symm)

/-- **C7, amended.** The reporter always prints exactly one status message
first, for every status; the solve time line and the geometry lines are
printed if and only if the status is admissible (OPTIMAL or FEASIBLE). -/
theorem print_logging_time_and_geometry_iff_admissible (sol : Solution) :
    (print_logging sol).head? = some (statusMessage sol.status) ∧
    (timeLine sol ∈ print_logging sol ↔ admissibleOpt sol.status = true) ∧
    (admissibleOpt sol.status = true →
      print_logging sol =
        [statusMessage sol.status, solvedLine sol, timeLine sol] ++
          geometryLines sol) ∧
    (admissibleOpt sol.status = false →
      print_logging sol = [statusMessage sol.status]) := by
  unfold print_logging
  cases hadm : admissibleOpt sol.status
  · refine ⟨by simp, ?_, by simp, by simp⟩
    simp only [if_neg (by simp : ¬ (false = true))]
    constructor
    · intro hmem
      have : timeLine sol = statusMessage sol.status := by
        simpa using hmem
      exact absurd this.symm (statusMessage_ne_timeLine _ _)
    · intro hcon
      exact absurd hcon (by simp)
  · refine ⟨by simp, ?_, by simp, by simp⟩
    simp

/-- **C9.** On the admissible decode path with `N ≥ 1` items, `rotation` is
always a list of exactly `N` booleans, never `None` (although the data model
declares it nullable); when the backend reports no `rot`-prefixed variable —
as with the base, no-rotation model — every entry is `False`. -/
theorem rotation_list_when_admissible (input_name : String) (W : Int) (N : Nat)
    (widths heights : List Int) (out : MipOutcome) (hN : 1 ≤ N)
    (hadm : SOLUTION_ADMISSABLE out.sol_status = true) :
    ∃ r : List Bool,
      (run_mip_solver input_name W N widths heights (Except.ok out)).rotation =
        some r ∧
      r.length = N ∧
      ((∀ v ∈ out.varList, ¬ v.1.startsWith "rot" = true) →
        r = List.replicate N false) := by
  have hlen : (decode_vars N out.varList).1.length = N := by
    unfold decode_vars
    rw [foldl_decode_rot_length]
    exact List.length_replicate _ _
  refine ⟨(decode_vars N out.varList).1, ?_, hlen, ?_⟩
  · show (run_mip_solver input_name W N widths heights (Except.ok out)).rotation = _
    unfold run_mip_solver
    simp only [hadm, if_true]
    rw [hlen]
    rw [if_pos (by omega : N > 0)]
  · intro hnorot
    unfold decode_vars
    rw [foldl_decode_rot_const _ hnorot]

theorem rotation_list_when_admissible_witness :
    ∃ r : List Bool,
      (run_mip_solver "ins-1" 8 1 [4] [3]
        (Except.ok ⟨StatusEnum.OPTIMAL, 1, 3, [("coord_x_0", 0), ("coord_y_0", 0)]⟩)).rotation =
        some r ∧
      r.length = 1 ∧
      ((∀ v ∈ ([("coord_x_0", 0), ("coord_y_0", 0)] : List (String × Int)),
        ¬ v.1.startsWith "rot" = true) → r = List.replicate 1 false) :=
  rotation_list_when_admissible "ins-1" 8 1 [4] [3]
    ⟨StatusEnum.OPTIMAL, 1, 3, [("coord_x_0", 0), ("coord_y_0", 0)]⟩
    (by decide) (by decide)

/-- **C10.** Every invocation of `compute_solution` raises `TypeError` before
plotting or returning, whatever the solver branch, the solution and the
verbosity flag: it calls `print_logging` with two arguments while
`print_logging` accepts exactly one. -/
theorem compute_solution_always_raises (input_name : String) (solver : SolverMIP)
    (verbose : Bool) (W : Int) (N : Nat) (widths heights : List Int)
    (minizincResult : Solution) (mipResult : Except String MipOutcome) :
    compute_solution input_name solver verbose W N widths heights minizincResult
      mipResult = Except.error PyError.typeError := by
  cases solver <;> rfl

end Vlsi
